import Mathlib

/-!
A shallow embedding of the multi-source installer-file model of the Lutris
repository and the background-job utilities backing it, together with theorems
checking the specification's claims.

Embedded modules:
* `lutris/lists.py`                        (restricted download domains)
* `lutris/installer/installer_file_source.py` (the four source variants)
* `lutris/installer/installer_file.py`     (`InstallerFile`)
* `lutris/util/jobs.py`                    (`AsyncCall`, `ProcessManager`)

Modelling conventions:
* Python strings are Lean `String`s; slicing such as `url[7:]` is performed on
  the character list (`String.data`), exactly like Python's per-character
  slicing.
* `os.path.exists` is modelled against an explicit filesystem state: a list of
  the paths that currently exist.
* Functions that can raise a Python exception return `Except PyErr _`.
* Deferred calls made through `schedule_at_idle` run FIFO on the single GLib
  main thread; the embedding applies their effects in exactly that order.
* Python floats (measured speeds) are modelled as `Nat`; the claims only ever
  compare speeds for truthiness or equality, never arithmetically.
-/

/-- Python exception values that the embedded code can raise. -/
inductive PyErr where
  | runtimeError (msg : String)
  | attributeError (name : String)
  | nameError (name : String)
  | valueError (msg : String)
deriving DecidableEq, Repr

/-- Python's `s.startswith(p)` on character lists: the first `p.length`
characters equal `p`. -/
def starts_with_chars (l p : List Char) : Bool :=
  decide (l.take p.length = p)

/-- Python's `s.startswith(p)` for strings. -/
def py_startswith (s p : String) : Bool :=
  starts_with_chars s.data p.data

/-- Python's `s.endswith(p)` on character lists. -/
def ends_with_chars (l p : List Char) : Bool :=
  decide (l.drop (l.length - p.length) = p)

/-- Python's `s.endswith(p)` for strings. -/
def py_endswith (s p : String) : Bool :=
  ends_with_chars s.data p.data

/-- Python's `s[n:]`: drop the first `n` characters. -/
def py_drop (s : String) (n : Nat) : String :=
  String.mk (s.data.drop n)

/-- Python's `s[1:0]`: an empty slice (stop index before start index). -/
def py_slice_1_0 (s : String) : String :=
  String.mk ((s.data.drop 1).take 0)

/-- `urllib.parse.urlparse(url).netloc` for `scheme://host/path` URLs: the
substring after the first `://` and before the following `/` (empty when the
URL has no `://`). -/
def netloc_chars : List Char → List Char
  | [] => []
  | ':' :: '/' :: '/' :: rest => rest.takeWhile (fun c => decide (c ≠ '/'))
  | _ :: rest => netloc_chars rest

/-- `urlparse(url).netloc` as a string-level function. -/
def netloc (url : String) : String :=
  String.mk (netloc_chars url.data)

/-! ## lutris/lists.py -/

/-- `restricted_domains`: domains Lutris should avoid downloading from if
there is a choice. -/
def restricted_domains : List String :=
  ["archive.org"]

/-- `restricted_domains_contain(url)`: true if the URL's domain ends with a
restricted domain.  Non-`http` URLs are never restricted. -/
def restricted_domains_contain (url : String) : Bool :=
  if py_startswith url "http" = false then
    false
  else
    restricted_domains.any (fun d => py_endswith (netloc url) d)

/-! ## lutris/installer/installer_file_source.py -/

/-- The four concrete source variants (`SourceSteam`, `SourceDownload`,
`SourceUser`, `SourceCache`). -/
inductive SKind where
  | steam
  | download
  | user
  | cache
deriving DecidableEq, Repr

/-- A `SourceDownload` speed value: `None` (never tested), `False` (tested,
not applicable / failed), or a measured value in bytes per second. -/
inductive Speed where
  | untested
  | notApplicable
  | measured (v : Nat)
deriving DecidableEq, Repr

/-- One installer file source.  The fields mirror the Python attributes; the
fields that only one variant uses carry that variant's value and are unread
for the others (exactly as the Python attributes are simply absent there).
`available` is `SourceDownload._available`: `none` models Python `None`. -/
structure Source where
  kind : SKind
  source_id : String
  url : String
  checksum : Option String := none
  referer : Option String := none
  available : Option Bool := none
  speed : Speed := Speed.untested
  temporary : Bool := false
  error : Option String := none
  error_code : Option Nat := none
deriving DecidableEq, Repr

/-- `SourceDownload.is_restricted`. -/
def Source.is_restricted (s : Source) : Bool :=
  restricted_domains_contain s.url

/-- The `available` property of each variant, evaluated against the list of
filesystem paths that exist.  The base class and `SourceSteam` stub returns
Python `None`; `SourceDownload` returns its stored `_available`;
`SourceUser` and `SourceCache` return `os.path.exists(self.url[7:])`. -/
def Source.available_prop (fs : List String) (s : Source) : Option Bool :=
  match s.kind with
  | SKind.steam => none
  | SKind.download => s.available
  | SKind.user => some (fs.contains (py_drop s.url 7))
  | SKind.cache => some (fs.contains (py_drop s.url 7))

/-- The behaviour of one transfer probe (`Downloader` in speedtest mode)
during the fixed 2.5s polling window of `SourceDownload.speed_test`:
it reaches `COMPLETED`, reaches `CANCELLED`/`ERROR`, or never leaves the
running state before the window closes. -/
inductive ProbeOutcome where
  | completed (average_speed : Nat) (is_file_completed : Bool)
  | failed (average_speed : Nat) (error : String) (error_code : Nat)
  | timeout
deriving DecidableEq, Repr

/-- `SourceDownload.speed_test`, as a function of the probe's outcome.
Returns the updated source and whether a `BytesIO` memfile was returned
(Python returns the memfile object itself; only its presence matters here).
The `_success`/`_error` closures run deferred on the main thread; their
effects are applied here in the order they are scheduled. -/
def speed_test (s : Source) (p : ProbeOutcome) : Source × Bool :=
  match p with
  | ProbeOutcome.completed avg fully =>
      ({ s with speed := Speed.measured avg }, fully)
  | ProbeOutcome.failed _avg err code =>
      let s1 := { s with speed := Speed.notApplicable }
      let s2 := if s1.available = some true then { s1 with available := some false } else s1
      ({ s2 with error := some err, error_code := some code }, false)
  | ProbeOutcome.timeout =>
      (s, false)

/-! ## lutris/installer/installer_file.py — data model -/

/-- `InstallerFile` ("FileAcquisition" in the spec).  Python holds object
references where this embedding holds indices into `sources` (`active_source`,
`cache_source`, `user_source`, `first_valid_download_source`); in every state
the code can construct, those references point into the owned source list.
`dest_file` is the destination path resolved by the external cache
collaborator (`get_url_cache_path` + filename). -/
structure InstallerFile where
  sources : List Source
  active_source : Option Nat := none
  cache_source : Option Nat := none
  url_override : Option String := none
  first_valid_download_source : Option Nat := none
  user_source : Nat
  dest_file : String
deriving DecidableEq, Repr

/-- `get_values_from_sources("source_id")`: every source has a non-callable
`source_id` attribute, so this is just the list of ids. -/
def source_ids (f : InstallerFile) : List String :=
  f.sources.map (fun s => s.source_id)

/-- Index view of `get_sources_by_class`: the indices of the sources of the
given class, in order. -/
def class_indices (f : InstallerFile) (k : SKind) : List Nat :=
  (List.range f.sources.length).filter
    (fun j => decide ((f.sources[j]?.map (fun s => s.kind)) = some k))

/-- `is_restricted` of the source at index `j` (dangling indices do not occur
in reachable states; they count as unrestricted here). -/
def restricted_at (f : InstallerFile) (j : Nat) : Bool :=
  match f.sources[j]? with
  | some s => s.is_restricted
  | none => false

/-- First index of a source whose `source_id` equals `sid`:
`get_sources_by_value("source_id", sid)[0]` as an index. -/
def index_of_id (sid : String) : List String → Nat
  | [] => 0
  | x :: rest => if x = sid then 0 else index_of_id sid rest + 1

/-- The sources of class `SourceCache` owned by the file. -/
def cache_sources (f : InstallerFile) : List Source :=
  f.sources.filter (fun s => decide (s.kind = SKind.cache))

/-- The `while new_id in id_list` loop of `InstallerFile._unique_id`: starting
from `current`, try `sid ++ str(i)` for i = 0, 1, ... until the candidate is
free.  The fuel `id_list.length + 1` always suffices because the candidates
are pairwise distinct.  Note that `_unique_id` discards this loop's result. -/
def new_id_loop (sid : String) (id_list : List String) : Nat → String → Nat → String
  | 0, current, _ => current
  | fuel + 1, current, i =>
      if current ∈ id_list then new_id_loop sid id_list fuel (sid ++ toString i) (i + 1)
      else current

/-- `InstallerFile._unique_id(source_id, id_list)` with the id list already
resolved (the Python defaults `id_list` to the ids of the owned sources).
A leading `"|"` makes the id the empty slice `source_id[1:0]`; an empty id
becomes `"source"`.  The collision loop computes `new_id`, but the function
returns `source_id` — the loop's result is discarded. -/
def unique_id (source_id : String) (id_list : List String) : String :=
  let source_id1 := if py_startswith source_id "|" then py_slice_1_0 source_id else source_id
  let source_id2 := if source_id1 = "" then "source" else source_id1
  let _new_id := new_id_loop source_id2 id_list (id_list.length + 1) source_id2 0
  source_id2

/-- `InstallerFile.add_source`: refuses a second cache source, rewrites the
new source's id through `_unique_id` against the owned ids, appends the
source, and returns its id. -/
def add_source (f : InstallerFile) (s : Source) : Except PyErr (InstallerFile × String) :=
  if s.kind = SKind.cache ∧ f.cache_source.isSome then
    Except.error (PyErr.valueError "Cache source already exists")
  else
    let s1 := { s with source_id := unique_id s.source_id (source_ids f) }
    Except.ok ({ f with sources := f.sources ++ [s1] }, s1.source_id)

/-! ## `InstallerFile.select_source` -/

/-- One step of `select_source`: either a final selection, a redirection
(Python's `return self.select_source(...)` recursion), or a raised
exception. -/
inductive SelOut where
  | done (f : InstallerFile) (i : Nat)
  | redirect (f : InstallerFile) (sid : String)
  | err (e : PyErr)
deriving DecidableEq, Repr

/-- The `if self.active_source is not None and self.active_source.source_id
== source_id` no-op check of `select_source`: the index of the active source
when its id is the requested one. -/
def select_noop (f : InstallerFile) (source_id : String) : Option Nat :=
  match f.active_source with
  | some i =>
      if (f.sources[i]?.map (fun s => s.source_id)) = some source_id then some i else none
  | none => none

/-- Redirect to the id of the source at index `j` (Python reads
`.source_id` off an owned source object; a dangling index cannot occur in a
reachable state and is mapped to an error artifact of the index encoding). -/
def redirect_to_index (f : InstallerFile) (j : Nat) : SelOut :=
  match f.sources[j]? with
  | some s => SelOut.redirect f s.source_id
  | none => SelOut.err (PyErr.runtimeError "dangling source reference")

/-- The `"|init"` branch of `select_source`: cache source, else (when more
than one source exists) first Steam source, else first non-restricted
download source (recording it in `_first_valid_download_source`), else — the
`for`/`else` — the first download source regardless of restriction, else the
user source; with a single owned source, the user source. -/
def select_init (f : InstallerFile) : SelOut :=
  match f.cache_source with
  | some ci => redirect_to_index f ci
  | none =>
    if 1 < f.sources.length then
      match class_indices f SKind.steam with
      | si :: _ => redirect_to_index f si
      | [] =>
        match class_indices f SKind.download with
        | [] => redirect_to_index f f.user_source
        | di :: rest =>
          match (di :: rest).find? (fun j => restricted_at f j = false) with
          | some j => redirect_to_index { f with first_valid_download_source := some j } j
          | none => redirect_to_index { f with first_valid_download_source := some di } di
    else
      redirect_to_index f f.user_source

/-- The `"|auto_available"` branch of `select_source`: the first
non-restricted download source is picked without consulting `available`;
when every download source is restricted (or none exists) the code evaluates
`self._sources[0].available`, and `_sources` is an attribute that is never
assigned on `InstallerFile`, so `AttributeError` is raised. -/
def select_auto_available (f : InstallerFile) : SelOut :=
  match (class_indices f SKind.download).find? (fun j => restricted_at f j = false) with
  | some j => redirect_to_index f j
  | none => SelOut.err (PyErr.attributeError "_sources")

/-- The concrete-id branch of `select_source`: an owned id becomes the
active source (`get_sources_by_value("source_id", source_id)[0]`); an
unknown id degrades to `"|init"` (logged, not thrown). -/
def select_concrete_step (f : InstallerFile) (source_id : String) : SelOut :=
  if source_id ∈ source_ids f then
    SelOut.done { f with active_source := some (index_of_id source_id (source_ids f)) }
      (index_of_id source_id (source_ids f))
  else
    SelOut.redirect f "|init"

/-- The body of `InstallerFile.select_source`, one recursion step.  Mirrors
the Python branch for branch: the `url_override` is reset first; re-selecting
the already-active source id returns it unchanged; then the reserved ids and
finally the concrete-id selection. -/
def select_step (f0 : InstallerFile) (source_id : String) : SelOut :=
  let f : InstallerFile := { f0 with url_override := none }
  match select_noop f source_id with
  | some i => SelOut.done f i
  | none =>
    if source_id = "|init" then select_init f
    else if source_id = "|auto_available" then select_auto_available f
    else select_concrete_step f source_id

/-- Run `select_step` until it settles, with fuel for the (bounded) Python
recursion. -/
def select_loop : Nat → InstallerFile → String → Except PyErr (InstallerFile × Nat)
  | 0, _, _ => Except.error (PyErr.runtimeError "recursion depth exceeded")
  | fuel + 1, f, sid =>
    match select_step f sid with
    | SelOut.done f1 i => Except.ok (f1, i)
    | SelOut.redirect f1 sid1 => select_loop fuel f1 sid1
    | SelOut.err e => Except.error e

/-- `InstallerFile.select_source(source_id)`.  The Python recursion depth is
at most 3 (`invalid id → "|init" → concrete id`); fuel 5 is ample. -/
def select_source (f : InstallerFile) (source_id : String) : Except PyErr (InstallerFile × Nat) :=
  select_loop 5 f source_id

/-! ## `InstallerFile.has_no_sources` / `uses_pga_cache` / `is_cached` -/

/-- The global names visible inside `lutris/installer/installer_file.py`:
the imported names plus the module's own class.  `UserSource` is not among
them (the imported class is `SourceUser`), and it is not a Python builtin. -/
def installer_file_globals : List String :=
  ["os", "BytesIO", "_", "__", "Optional", "Tuple", "Dict", "Set", "urlparse", "Lock",
   "GObject", "Gtk", "get_url_cache_path", "has_valid_custom_cache_path", "save_to_cache",
   "DownloadProgressBox", "ScriptingError", "system", "Downloader", "is_file_available",
   "logger", "gtk_safe_urls", "thread_namespace", "check_stop", "StopRequested",
   "ProcessManager", "schedule_at_idle", "SourceSteam", "SourceDownload", "SourceUser",
   "SourceCache", "InstallerFile"]

/-- Name resolution in the module scope of `installer_file.py`: an undefined
name raises `NameError`. -/
def resolve_global (n : String) : Except PyErr String :=
  if installer_file_globals.contains n then Except.ok n else Except.error (PyErr.nameError n)

/-- The class name each source variant is an instance of. -/
def kind_class_name : SKind → String
  | SKind.steam => "SourceSteam"
  | SKind.download => "SourceDownload"
  | SKind.user => "SourceUser"
  | SKind.cache => "SourceCache"

/-- `isinstance(self.active_source, cls)` for a resolved class name
(`isinstance(None, cls)` is `False`). -/
def isinstance_active (f : InstallerFile) (cls : String) : Bool :=
  match f.active_source.bind (fun i => f.sources[i]?) with
  | some s => decide (kind_class_name s.kind = cls)
  | none => false

/-- `InstallerFile.has_no_sources`: `hasattr(self, "sources")` holds for every
constructed instance, so with a single owned source the conjunction evaluates
`isinstance(self.active_source, UserSource)` — and the name `UserSource` is
undefined in the module, raising `NameError`. -/
def has_no_sources (f : InstallerFile) : Except PyErr Bool :=
  if f.sources.length = 1 then
    match resolve_global "UserSource" with
    | Except.ok cls => Except.ok (isinstance_active f cls)
    | Except.error e => Except.error e
  else
    Except.ok false

/-- `InstallerFile.uses_pga_cache`; `has_valid_custom_cache_path()` is an
external collaborator, passed in as a boolean. -/
def uses_pga_cache (f : InstallerFile) (has_valid_custom_cache_path : Bool) :
    Except PyErr Bool :=
  match has_no_sources f with
  | Except.error e => Except.error e
  | Except.ok b => if b then Except.ok false else Except.ok has_valid_custom_cache_path

/-- `InstallerFile.is_cached`: `uses_pga_cache() and path_exists(dest_file)`,
with Python's short-circuit `and`. -/
def is_cached (f : InstallerFile) (has_valid_custom_cache_path : Bool) (fs : List String) :
    Except PyErr Bool :=
  match uses_pga_cache f has_valid_custom_cache_path with
  | Except.error e => Except.error e
  | Except.ok b => if b then Except.ok (fs.contains f.dest_file) else Except.ok false

/-! ## `InstallerFile.run_speedtest` -/

/-- Python truthiness of a `speed` value (`if not overwrite_existing and
source.speed:`): `None` and `False` are falsy, and so is a measured `0.0`. -/
def speed_truthy : Speed → Bool
  | Speed.untested => false
  | Speed.notApplicable => false
  | Speed.measured v => decide (v ≠ 0)

/-- `InstallerFile.download_file`: the temporary download path. -/
def download_file (f : InstallerFile) : String :=
  f.dest_file ++ ".tmp"

/-- The `_add_cached` closure of `run_speedtest`, run deferred on the main
thread once the probe fully downloaded the file: build a transient
`SourceCache` (whose constructor writes the in-memory bytes to the temporary
path and `os.rename`s them to the destination), `add_source` it, and point
`cache_source` at it.  The filesystem is threaded through explicitly. -/
def add_cached (fs : List String) (f : InstallerFile) :
    Except PyErr (List String × InstallerFile) :=
  let tmp := download_file f
  let fs1 := fs ++ [tmp]
  let fs2 := (fs1.filter (fun p => decide (p ≠ tmp))) ++ [f.dest_file]
  let new_source : Source :=
    { kind := SKind.cache
      source_id := unique_id "tempcache" (source_ids f)
      url := f.dest_file
      temporary := true }
  match add_source f new_source with
  | Except.error e => Except.error e
  | Except.ok (f1, _) =>
      Except.ok (fs2, { f1 with cache_source := some f.sources.length })

/-- The loop of `run_speedtest` over the snapshot of download-source indices.
Each iteration checkpoints the caller's stop token; a source whose `speed` is
already truthy is skipped unless a re-test was forced; a probe that returns a
`BytesIO` schedules `prepare` (cache-directory creation, an external
collaborator with no effect on the modelled paths) and `_add_cached` when no
cache source exists yet, and stops probing in either case. -/
def run_speedtest_go (probes : Nat → ProbeOutcome) (overwrite_existing : Bool)
    (stop_requested : Bool) :
    List Nat → List String → InstallerFile → Except PyErr (List String × InstallerFile)
  | [], fs, f => Except.ok (fs, f)
  | j :: rest, fs, f =>
    if stop_requested then Except.ok (fs, f)
    else
      match f.sources[j]? with
      | none => run_speedtest_go probes overwrite_existing stop_requested rest fs f
      | some s =>
        if overwrite_existing = false ∧ speed_truthy s.speed = true then
          run_speedtest_go probes overwrite_existing stop_requested rest fs f
        else
          let r := speed_test s (probes j)
          let f1 := { f with sources := f.sources.set j r.1 }
          if r.2 then
            if f1.cache_source = none then add_cached fs f1
            else Except.ok (fs, f1)
          else run_speedtest_go probes overwrite_existing stop_requested rest fs f1

/-- `InstallerFile.run_speedtest(overwrite_existing)`: probe the download
sources sequentially; `probes j` is the transfer behaviour of the source at
index `j`. -/
def run_speedtest (fs : List String) (f : InstallerFile) (probes : Nat → ProbeOutcome)
    (overwrite_existing : Bool) (stop_requested : Bool) :
    Except PyErr (List String × InstallerFile) :=
  run_speedtest_go probes overwrite_existing stop_requested
    (class_indices f SKind.download) fs f

/-! ## lutris/util/jobs.py -/

/-- A Python dict key as used by `ProcessManager._active_processes`:
`add_job` uses the *integer* `id(func)` when no name is given, and the
caller-provided *string* otherwise.  An int key and a str key never compare
equal. -/
inductive PyKey where
  | int (n : Nat)
  | str (s : String)
deriving DecidableEq, Repr

/-- `str(key)` as returned by `add_job`. -/
def key_str : PyKey → String
  | PyKey.int n => toString n
  | PyKey.str s => s

/-- The per-job state relevant to the claims: the `AsyncCall`'s
`stop_request` event. -/
structure PMJob where
  stop_request : Bool
deriving DecidableEq, Repr

/-- `ProcessManager`: the map of named running jobs, as an insertion-ordered
association list with unique keys (Python dict). -/
structure ProcessManager where
  active_processes : List (PyKey × PMJob)
deriving DecidableEq, Repr

/-- `name in self._active_processes` (also `ProcessManager.__contains__`). -/
def ProcessManager.has_name (pm : ProcessManager) (k : PyKey) : Bool :=
  pm.active_processes.any (fun p => decide (p.1 = k))

/-- `ProcessManager.add_job(func, callback, name, ...)`: with no name the key
is `id(func)`; a duplicate name is rejected with the `None` sentinel and the
map is left untouched; otherwise the job is started, stored, and `str(name)`
is returned. -/
def ProcessManager.add_job (pm : ProcessManager) (func_id : Nat) (name : Option String) :
    ProcessManager × Option String :=
  let key : PyKey := match name with | some s => PyKey.str s | none => PyKey.int func_id
  if pm.has_name key then (pm, none)
  else ({ active_processes := pm.active_processes ++ [(key, { stop_request := false })] },
        some (key_str key))

/-- `ProcessManager.remove_job(name, send_stop_request, origin)`: remove the
job under the key and set its stop token, atomically under the map lock;
an unknown key returns the `False` sentinel (here `none`) and changes
nothing. -/
def ProcessManager.remove_job (pm : ProcessManager) (k : PyKey) (send_stop_request : Bool) :
    ProcessManager × Option PMJob :=
  match pm.active_processes.find? (fun p => decide (p.1 = k)) with
  | some entry =>
      ({ active_processes := pm.active_processes.eraseP (fun p => decide (p.1 = k)) },
       some (if send_stop_request then { entry.2 with stop_request := true } else entry.2))
  | none => (pm, none)

/-- The result slot passed to the callback: `None` unless the work returned
normally. -/
def work_result {α : Type} (w : Except String α) : Option α :=
  match w with
  | Except.ok r => some r
  | Except.error _ => none

/-- The error slot passed to the callback: `None` unless the work raised. -/
def work_error {α : Type} (w : Except String α) : Option String :=
  match w with
  | Except.ok _ => none
  | Except.error e => some e

/-- `AsyncCall.target`: run the work, capture result or error, and — only if
the stop token is not set at that point — schedule `callback(result, error)`
once on the main thread.  The return value is the scheduled callback's
arguments, or `none` when the callback is dropped. -/
def AsyncCall_target {α : Type} (stop_is_set : Bool) (w : Except String α) :
    Option (Option α × Option String) :=
  match stop_is_set with
  | false => some (work_result w, work_error w)
  | true => none

/-! ## Concrete scenarios -/

/-- Download source `a.test`, confirmed unavailable. -/
def src_a : Source :=
  { kind := SKind.download, source_id := "a", url := "http://a.test/f.zip",
    available := some false }

/-- Download source `b.test`, confirmed available. -/
def src_b : Source :=
  { kind := SKind.download, source_id := "b", url := "http://b.test/f.zip",
    available := some true }

/-- The synthesized user source. -/
def src_user : Source :=
  { kind := SKind.user, source_id := "user", url := "N/A" }

/-- The `[Download a.test, Download b.test, User]` file of the
`"|auto_available"` scenario, after `a.test` was marked unavailable; `a` is
the currently active source (picked by `"|init"`). -/
def file_auto : InstallerFile :=
  { sources := [src_a, src_b, src_user]
    active_source := some 0
    cache_source := none
    first_valid_download_source := some 0
    user_source := 2
    dest_file := "/tmp/lutris/f.zip" }

/-- A file with one download source and the user source, no cache source. -/
def file_probe : InstallerFile :=
  { sources := [{ kind := SKind.download, source_id := "1", url := "http://a.test/f.zip" },
                src_user]
    active_source := some 0
    cache_source := none
    first_valid_download_source := some 0
    user_source := 1
    dest_file := "/tmp/lutris/f.zip" }

/-- Every probe completes in full at 1000 bytes/s within the window. -/
def probes_complete : Nat → ProbeOutcome :=
  fun _ => ProbeOutcome.completed 1000 true

/-- A file with two download sources and the user source. -/
def file_two_downloads : InstallerFile :=
  { sources := [{ kind := SKind.download, source_id := "1", url := "http://a.test/f.zip" },
                { kind := SKind.download, source_id := "2", url := "http://b.test/f.zip" },
                src_user]
    active_source := some 0
    cache_source := none
    first_valid_download_source := some 0
    user_source := 2
    dest_file := "/tmp/lutris/f.zip" }

/-- The first source's probe never leaves the running state; the second
completes (not in full) at 500 bytes/s. -/
def probes_first_times_out : Nat → ProbeOutcome
  | 0 => ProbeOutcome.timeout
  | _ => ProbeOutcome.completed 500 false

/-- A file owning a single download source whose id is `"user"`, so that the
id of a manually added source collides. -/
def file_id_collision : InstallerFile :=
  { sources := [{ kind := SKind.download, source_id := "user", url := "http://a.test/f.zip" }]
    active_source := some 0
    user_source := 0
    dest_file := "/tmp/lutris/f.zip" }

/-- A user-only file: the `files` entry was `N/A`, leaving only the
synthesized user source. -/
def file_user_only : InstallerFile :=
  { sources := [src_user]
    active_source := some 0
    user_source := 0
    dest_file := "/tmp/lutris/f.zip" }

/-- A file with a (PGA) cache source, a steam source, a download source and
the user source. -/
def file_with_cache : InstallerFile :=
  { sources := [{ kind := SKind.steam, source_id := "steam", url := "$STEAM:1:x" },
                { kind := SKind.download, source_id := "dl", url := "http://a.test/f.zip" },
                src_user,
                { kind := SKind.cache, source_id := "cache", url := "/tmp/lutris/f.zip" }]
    active_source := some 1
    cache_source := some 3
    first_valid_download_source := some 1
    user_source := 2
    dest_file := "/tmp/lutris/f.zip" }

/-- A scheduler tracking a single job named `"job"`. -/
def pm_one : ProcessManager :=
  { active_processes := [(PyKey.str "job", { stop_request := false })] }

/-- The empty scheduler. -/
def pm_empty : ProcessManager :=
  { active_processes := [] }

/-! ## Spec-side definition and projections used by the claims -/

/-- The claim's resolution order for `select("|init")`, written from the
specification's words: the existing Cache source; else the first Steam
source; else the first non-restricted Download source; else the first
Download source regardless of restriction; else the User source.  To be
compared with `select_source`. -/
def init_priority_spec (f : InstallerFile) : Nat :=
  match f.cache_source with
  | some ci => ci
  | none =>
    match class_indices f SKind.steam with
    | si :: _ => si
    | [] =>
      match class_indices f SKind.download with
      | [] => f.user_source
      | di :: rest =>
        match (di :: rest).find? (fun j => restricted_at f j = false) with
        | some j => j
        | none => di

/-- The successful result of `select_source` (the default arm is unreachable
whenever a theorem also asserts `select_source f sid = Except.ok _`). -/
def select_result (f : InstallerFile) (sid : String) : InstallerFile × Nat :=
  match select_source f sid with
  | Except.ok p => p
  | Except.error _ => (f, 0)

/-- The scheduler state after `add_job(func)` without a name: the job is
stored under the integer key `id(func)`. -/
def after_unnamed_add (pm : ProcessManager) (func_id : Nat) : ProcessManager :=
  { active_processes := pm.active_processes ++ [(PyKey.int func_id, { stop_request := false })] }

/-! # Theorems -/

/-! ## C1 -/

/-- C1: the claim states that `select("|auto_available")` picks the first
non-restricted Download source *known to be available*, so that on
`[Download a.test, Download b.test, User]` with `a.test` marked unavailable
it leaves `b.test` active.  The code never consults `available` in that loop:
evaluated on exactly that source set, it selects index 0 — the `a.test`
source whose `available` is `False` — and not the available `b.test` source,
contradicting the claim (and the comment above the branch). -/
theorem auto_available_picks_unavailable_source :
    select_source file_auto "|auto_available" = Except.ok (file_auto, 0)
    ∧ (file_auto.sources[0]?.map (fun s => (s.url, s.available)))
        = some ("http://a.test/f.zip", some false)
    ∧ (file_auto.sources[1]?.map (fun s => (s.url, s.available)))
        = some ("http://b.test/f.zip", some true) := by
  refine ⟨rfl, rfl, rfl⟩

/-! ## C3 -/

/-- C3: probing a source that fully completes inside the window, with no
prior cache source, synthesizes exactly one new transient Cache source and
stops probing, and a repeated (forced) run never creates a second one — but
the new cache source's `available` property evaluates to Python `False`,
not `True` as the claim states: the destination file exists (the filesystem
is `["/tmp/lutris/f.zip"]` afterwards), yet `available` tests
`os.path.exists(self.url[7:])` while the stored url is the plain destination
path, because `InstallerFileSource.__init__` assigns `self._url` directly and
bypasses the `file://`-prepending url setter. -/
theorem speedtest_cache_synthesized_once_but_unavailable :
    (run_speedtest [] file_probe probes_complete false false).toOption.map
        (fun p => (p.1,
                   (cache_sources p.2).length,
                   (cache_sources p.2).map (fun s => Source.available_prop p.1 s),
                   (run_speedtest p.1 p.2 probes_complete true false).toOption.map
                     (fun q => (cache_sources q.2).length)))
      = some (["/tmp/lutris/f.zip"], 1, [some false], some 1) := by
  decide

/-! ## C6 -/

/-- C6: the claim states that id collisions are auto-suffixed so that no two
owned sources ever share a `source_id`.  `_unique_id` does compute a suffixed
`new_id` in its loop, but then returns the original `source_id` — contradicting
its own docstring: `unique_id "user" ["user"]` returns the already-taken
`"user"`, and `add_source` of a source with id `"user"` to a file already
owning that id yields two sources with the same id. -/
theorem unique_id_keeps_colliding_id :
    unique_id "user" ["user"] = "user"
    ∧ (add_source file_id_collision src_user).toOption.map
        (fun p => (source_ids p.1, p.2, decide ((source_ids p.1).Nodup)))
      = some (["user", "user"], "user", false) := by
  exact ⟨rfl, by decide⟩

/-! ## C7 -/

/-- C7 counterexample: the claim states that a probe that never leaves the
running state within the window sets the source's speed to the `False`
sentinel.  Running the probe loop on two download sources whose first probe
times out leaves that source's speed at Python `None` (`Speed.untested`),
which is not the sentinel — refuting the claim at this input. -/
theorem speedtest_timeout_sentinel_cex :
    (run_speedtest [] file_two_downloads probes_first_times_out false false).toOption.map
        (fun p => p.2.sources.map (fun s => s.speed))
      = some [Speed.untested, Speed.measured 500, Speed.untested]
    ∧ Speed.untested ≠ Speed.notApplicable := by
  exact ⟨by decide, by decide⟩

/-- C7 amended: on timeout the probe changes nothing on the source — its
speed keeps its previous value (`None` when never tested; the `False`
sentinel is only written by the cancellation/error path) — and the probe run
continues with the next Download source in sequence, which here gets its
speed measured. -/
theorem speedtest_timeout_leaves_speed_and_continues :
    (∀ s : Source, speed_test s ProbeOutcome.timeout = (s, false))
    ∧ (run_speedtest [] file_two_downloads probes_first_times_out false false).toOption.map
        (fun p => (p.2.sources[0]?, p.2.sources[1]?.map (fun s => s.speed)))
      = some (file_two_downloads.sources[0]?, some (Speed.measured 500)) := by
  exact ⟨fun s => rfl, by decide⟩

/-! ## C9 -/

/-- C9: on a `FileAcquisition` owning a single source (the synthesized User
source only), reading `has_no_sources` evaluates
`isinstance(self.active_source, UserSource)` and the name `UserSource` is
undefined in `installer_file.py` (the imported class is `SourceUser`), so
`NameError` is raised; `uses_pga_cache` and `is_cached` propagate it instead
of returning `False`. -/
theorem single_source_file_raises_nameerror (f : InstallerFile)
    (has_valid_custom_cache_path : Bool) (fs : List String)
    (h : f.sources.length = 1) :
    has_no_sources f = Except.error (PyErr.nameError "UserSource")
    ∧ uses_pga_cache f has_valid_custom_cache_path = Except.error (PyErr.nameError "UserSource")
    ∧ is_cached f has_valid_custom_cache_path fs = Except.error (PyErr.nameError "UserSource") := by
  have h1 : has_no_sources f = Except.error (PyErr.nameError "UserSource") := by
    unfold has_no_sources
    rw [if_pos h]
    rfl
  refine ⟨h1, ?_, ?_⟩
  · unfold uses_pga_cache
    rw [h1]
  · unfold is_cached uses_pga_cache
    rw [h1]

/-- C9 witness: the user-only file. -/
theorem single_source_file_raises_nameerror_witness :
    has_no_sources file_user_only = Except.error (PyErr.nameError "UserSource")
    ∧ uses_pga_cache file_user_only true = Except.error (PyErr.nameError "UserSource")
    ∧ is_cached file_user_only true [] = Except.error (PyErr.nameError "UserSource") :=
  single_source_file_raises_nameerror file_user_only true [] rfl

/-! ## C4 -/

/-- C4: `AsyncCall.target` schedules `callback(result, error)` exactly once
when the stop token is not set at completion (for normal returns and captured
errors alike, via the `result`/`error` slots), and schedules nothing when it
is set; `ProcessManager.remove_job` (the `cancel(name)` of the spec) sets the
removed job's stop token, so a cancellation that happens before the work
finishes suppresses the callback. -/
theorem stopped_job_never_schedules_callback {α : Type} (w : Except String α)
    (pm pm1 : ProcessManager) (k : PyKey) (j : PMJob)
    (h : pm.remove_job k true = (pm1, some j)) :
    AsyncCall_target true w = none
    ∧ AsyncCall_target false w = some (work_result w, work_error w)
    ∧ j.stop_request = true
    ∧ AsyncCall_target j.stop_request w = none := by
  have hj : j.stop_request = true := by
    unfold ProcessManager.remove_job at h
    cases hf : pm.active_processes.find? (fun p => decide (p.1 = k)) with
    | none => rw [hf] at h; simp at h
    | some entry =>
        rw [hf] at h
        simp only [Prod.mk.injEq, Option.some.injEq] at h
        rw [← h.2]
        simp
  refine ⟨by rfl, by rfl, hj, ?_⟩
  rw [hj]
  rfl

/-- C4 witness: a one-job scheduler whose job is cancelled right before its
work finishes; the callback of the cancelled job is dropped. -/
theorem stopped_job_never_schedules_callback_witness :
    AsyncCall_target true (Except.ok 0 : Except String Nat) = none
    ∧ AsyncCall_target false (Except.ok 0 : Except String Nat)
        = some (work_result (Except.ok 0 : Except String Nat),
                work_error (Except.ok 0 : Except String Nat))
    ∧ (PMJob.mk true).stop_request = true
    ∧ AsyncCall_target (PMJob.mk true).stop_request (Except.ok 0 : Except String Nat) = none :=
  stopped_job_never_schedules_callback (Except.ok 0 : Except String Nat)
    pm_one pm_empty (PyKey.str "job") (PMJob.mk true) (by decide)

/-! ## C5 -/

/-- C5: while a job is tracked under a name, only the first `add_job` under
that name succeeds (returning the name); any later submission under the same
name — against any scheduler state still tracking it — returns the `None`
failure sentinel and leaves the scheduler state, including the running job,
completely untouched. -/
theorem duplicate_job_name_rejected (pm pm2 : ProcessManager) (name : String)
    (fid fid2 : Nat)
    (h : pm.has_name (PyKey.str name) = false)
    (h2 : pm2.has_name (PyKey.str name) = true) :
    pm.add_job fid (some name)
      = ({ active_processes :=
             pm.active_processes ++ [(PyKey.str name, { stop_request := false })] },
         some name)
    ∧ pm2.add_job fid2 (some name) = (pm2, none) := by
  constructor
  · unfold ProcessManager.add_job
    dsimp only
    rw [h]
    rfl
  · unfold ProcessManager.add_job
    dsimp only
    rw [h2]
    rfl

/-- C5 witness: submitting `"job"` to the empty scheduler succeeds; submitting
it again while it is tracked is rejected and changes nothing. -/
theorem duplicate_job_name_rejected_witness :
    pm_empty.add_job 1 (some "job")
      = ({ active_processes :=
             pm_empty.active_processes ++ [(PyKey.str "job", { stop_request := false })] },
         some "job")
    ∧ pm_one.add_job 2 (some "job") = (pm_one, none) :=
  duplicate_job_name_rejected pm_empty pm_one "job" 1 2 (by decide) (by decide)

/-! ## C10 -/

/-- C10: `add_job` with no explicit name stores the job under the *integer*
key `id(func)` but returns the *string* `str(id(func))`; the returned name
therefore never matches the stored key — `remove_job` with it returns the
not-found `False` sentinel without removing or stopping anything, and the
scheduler's containment test with the returned name is false while the job is
still tracked under its integer key. -/
theorem unnamed_job_string_name_never_matches (pm : ProcessManager) (fid : Nat)
    (h1 : pm.has_name (PyKey.int fid) = false)
    (h2 : pm.has_name (PyKey.str (toString fid)) = false) :
    pm.add_job fid none = (after_unnamed_add pm fid, some (toString fid))
    ∧ (after_unnamed_add pm fid).has_name (PyKey.int fid) = true
    ∧ (after_unnamed_add pm fid).has_name (PyKey.str (toString fid)) = false
    ∧ (after_unnamed_add pm fid).remove_job (PyKey.str (toString fid)) true
        = (after_unnamed_add pm fid, none) := by
  have hs : (after_unnamed_add pm fid).has_name (PyKey.str (toString fid)) = false := by
    unfold ProcessManager.has_name at h2 ⊢
    unfold after_unnamed_add
    rw [List.any_append, h2]
    simp
  refine ⟨?_, ?_, hs, ?_⟩
  · unfold ProcessManager.add_job
    dsimp only
    rw [h1]
    rfl
  · unfold ProcessManager.has_name after_unnamed_add
    rw [List.any_append]
    simp
  · unfold ProcessManager.remove_job
    have hf : (after_unnamed_add pm fid).active_processes.find?
        (fun p => decide (p.1 = PyKey.str (toString fid))) = none := by
      rw [List.find?_eq_none]
      intro x hx hpx
      have hx1 : x.1 = PyKey.str (toString fid) := of_decide_eq_true hpx
      have hmem : (after_unnamed_add pm fid).has_name (PyKey.str (toString fid)) = true := by
        unfold ProcessManager.has_name
        exact List.any_eq_true.mpr ⟨x, hx, by rw [hx1]; simp⟩
      rw [hs] at hmem
      cases hmem
    rw [hf]

/-- C10 witness: an unnamed job on the empty scheduler, `id(func) = 7`. -/
theorem unnamed_job_string_name_never_matches_witness :
    pm_empty.add_job 7 none = (after_unnamed_add pm_empty 7, some (toString 7))
    ∧ (after_unnamed_add pm_empty 7).has_name (PyKey.int 7) = true
    ∧ (after_unnamed_add pm_empty 7).has_name (PyKey.str (toString 7)) = false
    ∧ (after_unnamed_add pm_empty 7).remove_job (PyKey.str (toString 7)) true
        = (after_unnamed_add pm_empty 7, none) :=
  unnamed_job_string_name_never_matches pm_empty 7 (by decide) (by decide)

/-! ## Helper lemmas for the selection state machine -/

theorem index_of_id_lt_length {sid : String} {l : List String} (h : sid ∈ l) :
    index_of_id sid l < l.length := by
  induction l with
  | nil => cases h
  | cons x rest ih =>
    by_cases hx : x = sid
    · simp [index_of_id, hx]
    · have hm : sid ∈ rest := by
        cases List.mem_cons.mp h with
        | inl he => exact absurd he.symm hx
        | inr hm => exact hm
      simp only [index_of_id, if_neg hx, List.length_cons]
      exact Nat.succ_lt_succ (ih hm)

theorem getElem?_index_of_id {sid : String} {l : List String} (h : sid ∈ l) :
    l[index_of_id sid l]? = some sid := by
  induction l with
  | nil => cases h
  | cons x rest ih =>
    by_cases hx : x = sid
    · simp [index_of_id, hx]
    · have hm : sid ∈ rest := by
        cases List.mem_cons.mp h with
        | inl he => exact absurd he.symm hx
        | inr hm => exact hm
      simp only [index_of_id, if_neg hx, List.getElem?_cons_succ]
      exact ih hm

theorem index_of_id_eq_of_nodup {l : List String} {i : Nat} {sid : String}
    (hnd : l.Nodup) (h : l[i]? = some sid) :
    index_of_id sid l = i := by
  induction l generalizing i with
  | nil => simp at h
  | cons x rest ih =>
    cases i with
    | zero =>
      simp only [List.getElem?_cons_zero, Option.some.injEq] at h
      simp [index_of_id, h]
    | succ n =>
      rw [List.getElem?_cons_succ] at h
      have hmem : sid ∈ rest := by
        rcases List.getElem?_eq_some_iff.mp h with ⟨hlt, he⟩
        exact he ▸ List.getElem_mem hlt
      have hx : ¬ x = sid := by
        intro he
        exact (List.nodup_cons.mp hnd).1 (he ▸ hmem)
      simp only [index_of_id, if_neg hx]
      rw [ih (List.nodup_cons.mp hnd).2 h]

theorem reset_sources (f : InstallerFile) :
    ({ f with url_override := none } : InstallerFile).sources = f.sources := rfl

theorem reset_cache (f : InstallerFile) :
    ({ f with url_override := none } : InstallerFile).cache_source = f.cache_source := rfl

theorem reset_user (f : InstallerFile) :
    ({ f with url_override := none } : InstallerFile).user_source = f.user_source := rfl

theorem class_indices_reset (f : InstallerFile) (k : SKind) :
    class_indices { f with url_override := none } k = class_indices f k := rfl

theorem restricted_at_reset (f : InstallerFile) (j : Nat) :
    restricted_at { f with url_override := none } j = restricted_at f j := rfl

theorem source_ids_reset (f : InstallerFile) :
    source_ids { f with url_override := none } = source_ids f := rfl

/-- Unfold one recursion step of `select_source`. -/
theorem select_source_step (f : InstallerFile) (sid : String) :
    select_source f sid =
      match select_step f sid with
      | SelOut.done f1 i => Except.ok (f1, i)
      | SelOut.redirect f1 sid1 => select_loop 4 f1 sid1
      | SelOut.err e => Except.error e := rfl

theorem select_noop_of_eq_none {f : InstallerFile} {sid : String}
    (h : ∀ i s, f.active_source = some i → f.sources[i]? = some s → ¬ s.source_id = sid) :
    select_noop f sid = none := by
  unfold select_noop
  cases ha : f.active_source with
  | none => rfl
  | some i =>
    cases hs : f.sources[i]? with
    | none => simp [hs]
    | some s => simp [hs, h i s ha hs]

theorem select_noop_of_eq_some {f : InstallerFile} {sid : String} {i : Nat}
    (h : select_noop f sid = some i) :
    f.active_source = some i ∧ (f.sources[i]?.map (fun s => s.source_id)) = some sid := by
  unfold select_noop at h
  cases ha : f.active_source with
  | none => rw [ha] at h; cases h
  | some i2 =>
    rw [ha] at h
    dsimp only at h
    by_cases hc : (f.sources[i2]?.map (fun s => s.source_id)) = some sid
    · rw [if_pos hc] at h
      have hi : i2 = i := Option.some.inj h
      subst hi
      exact ⟨rfl, hc⟩
    · rw [if_neg hc] at h; cases h

/-- A source id owned by the file never starts with the reserved sentinel, so
it is neither `"|init"` nor `"|auto_available"`, and selecting it settles in
one step on the source at its first index. -/
theorem select_loop_concrete (fuel : Nat) (f : InstallerFile) {sid : String}
    (hmem : sid ∈ source_ids f)
    (hp : ∀ s ∈ f.sources, py_startswith s.source_id "|" = false) :
    ∃ f1 i, select_loop (fuel + 1) f sid = Except.ok (f1, i)
      ∧ f1.active_source = some i
      ∧ (f1.sources[i]?.map (fun s => s.source_id)) = some sid
      ∧ f1.sources = f.sources
      ∧ f1.url_override = none := by
  have hsid_pipe : py_startswith sid "|" = false := by
    rcases List.mem_map.mp hmem with ⟨s, hs, hse⟩
    rw [← hse]; exact hp s hs
  have hne1 : ¬ sid = "|init" := by
    intro he; rw [he] at hsid_pipe
    exact absurd hsid_pipe (by decide)
  have hne2 : ¬ sid = "|auto_available" := by
    intro he; rw [he] at hsid_pipe
    exact absurd hsid_pipe (by decide)
  cases hn : select_noop { f with url_override := none } sid with
  | some i =>
    obtain ⟨ha, hsi⟩ := select_noop_of_eq_some hn
    refine ⟨{ f with url_override := none }, i, ?_, ha, hsi, rfl, rfl⟩
    show select_loop (fuel + 1) f sid = _
    rw [show select_loop (fuel + 1) f sid =
          (match select_step f sid with
           | SelOut.done f1 i => Except.ok (f1, i)
           | SelOut.redirect f1 sid1 => select_loop fuel f1 sid1
           | SelOut.err e => Except.error e) from rfl]
    unfold select_step
    dsimp only
    rw [hn]
  | none =>
    refine ⟨{ { f with url_override := none } with
                active_source := some (index_of_id sid (source_ids f)) },
            index_of_id sid (source_ids f), ?_, rfl, ?_, rfl, rfl⟩
    · rw [show select_loop (fuel + 1) f sid =
            (match select_step f sid with
             | SelOut.done f1 i => Except.ok (f1, i)
             | SelOut.redirect f1 sid1 => select_loop fuel f1 sid1
             | SelOut.err e => Except.error e) from rfl]
      unfold select_step
      dsimp only
      rw [hn, if_neg hne1, if_neg hne2]
      unfold select_concrete_step
      rw [if_pos (show sid ∈ source_ids { f with url_override := none } from hmem)]
      rfl
    · show (f.sources[index_of_id sid (source_ids f)]?.map (fun s => s.source_id)) = some sid
      rw [← List.getElem?_map]
      exact getElem?_index_of_id hmem

/-- As `select_loop_concrete`, with the selected index pinned by `Nodup`. -/
theorem select_loop_concrete_idx (fuel : Nat) (f : InstallerFile) {sid : String} {i : Nat}
    (hnd : (source_ids f).Nodup)
    (hp : ∀ s ∈ f.sources, py_startswith s.source_id "|" = false)
    (hid : (source_ids f)[i]? = some sid) :
    ∃ f1, select_loop (fuel + 1) f sid = Except.ok (f1, i)
      ∧ f1.active_source = some i
      ∧ f1.sources = f.sources
      ∧ f1.url_override = none := by
  have hmem : sid ∈ source_ids f := by
    rcases List.getElem?_eq_some_iff.mp hid with ⟨hlt, he⟩
    exact he ▸ List.getElem_mem hlt
  obtain ⟨f1, j, hrun, hact, hmap, hsrc, hov⟩ := select_loop_concrete fuel f hmem hp
  have hj : j = i := by
    have hj1 : (source_ids f)[j]? = some sid := by
      rw [source_ids, List.getElem?_map, ← hsrc]
      exact hmap
    have e1 := index_of_id_eq_of_nodup hnd hj1
    have e2 := index_of_id_eq_of_nodup hnd hid
    rw [← e1, ← e2]
  subst hj
  exact ⟨f1, hrun, hact, hsrc, hov⟩

theorem class_indices_kind {f : InstallerFile} {k : SKind} {j : Nat}
    (h : j ∈ class_indices f k) :
    ∃ s, f.sources[j]? = some s ∧ s.kind = k := by
  unfold class_indices at h
  have h1 := of_decide_eq_true (List.mem_filter.mp h).2
  cases hs : f.sources[j]? with
  | none => rw [hs] at h1; cases h1
  | some s =>
    rw [hs] at h1
    refine ⟨s, rfl, ?_⟩
    simpa using h1

/-- A class of sources other than `SourceUser` has no index in a file whose
single owned source (index 0) is the user source. -/
theorem class_indices_empty_of_single {f : InstallerFile} {k : SKind}
    (hlen : f.sources.length = 1)
    (h0 : f.sources[0]?.map (fun s => s.kind) = some SKind.user)
    (hk : ¬ SKind.user = k) :
    class_indices f k = [] := by
  have hcond : decide ((f.sources[0]?.map (fun s => s.kind)) = some k) = false := by
    rw [h0]
    exact decide_eq_false (fun he => hk (Option.some.inj he))
  unfold class_indices
  rw [hlen, show List.range 1 = [0] from rfl, List.filter_cons, hcond]
  rfl

/-- `select_loop_concrete_idx`, stated so that it can be `apply`ed directly
against a goal: the file is inferred from the goal and the source list of the
result is given by any equal list. -/
theorem select_loop_concrete_goal (fuel : Nat) (g : InstallerFile) {sid : String} {i : Nat}
    (target_sources : List Source)
    (hnd : (source_ids g).Nodup)
    (hp : ∀ s ∈ g.sources, py_startswith s.source_id "|" = false)
    (hid : (source_ids g)[i]? = some sid)
    (hsrc : g.sources = target_sources) :
    ∃ f1, select_loop (fuel + 1) g sid = Except.ok (f1, i)
      ∧ f1.active_source = some i
      ∧ f1.sources = target_sources
      ∧ f1.url_override = none := by
  obtain ⟨f1, hrun, hact, hs, hov⟩ := select_loop_concrete_idx fuel g hnd hp hid
  exact ⟨f1, hrun, hact, hs.trans hsrc, hov⟩

/-- The walk of `select_source f "|init"` under the construction invariants:
it terminates with the source picked by the specification's priority order
active, touching neither the source list nor (beyond clearing it) the
override. -/
theorem select_init_walk (f : InstallerFile)
    (hnd : (source_ids f).Nodup)
    (hp : ∀ s ∈ f.sources, py_startswith s.source_id "|" = false)
    (hu : f.sources[f.user_source]?.map (fun s => s.kind) = some SKind.user)
    (hc : ∀ ci ∈ f.cache_source.toList, ci < f.sources.length) :
    ∃ f1, select_source f "|init" = Except.ok (f1, init_priority_spec f)
      ∧ f1.active_source = some (init_priority_spec f)
      ∧ f1.sources = f.sources ∧ f1.url_override = none := by
  obtain ⟨us, hus⟩ : ∃ us, f.sources[f.user_source]? = some us := by
    cases hs : f.sources[f.user_source]? with
    | none => rw [hs] at hu; cases hu
    | some us => exact ⟨us, rfl⟩
  have husid : (source_ids f)[f.user_source]? = some us.source_id := by
    rw [source_ids, List.getElem?_map, hus]; rfl
  have hno : select_noop { f with url_override := none } "|init" = none := by
    apply select_noop_of_eq_none
    intro i s _ hs he
    have hmem : s ∈ f.sources := by
      rcases List.getElem?_eq_some_iff.mp (hs : f.sources[i]? = some s) with ⟨hlt, hgs⟩
      exact hgs ▸ List.getElem_mem hlt
    have hps := hp s hmem
    rw [he] at hps
    exact absurd hps (by decide)
  have hstep : select_step f "|init" = select_init { f with url_override := none } := by
    unfold select_step
    dsimp only
    rw [hno]
    rfl
  rw [select_source_step, hstep]
  unfold select_init
  generalize hfr : ({ f with url_override := none } : InstallerFile) = fr
  have hfrs : fr.sources = f.sources := by rw [← hfr]
  have hfru : fr.user_source = f.user_source := by rw [← hfr]
  have hfrc : fr.cache_source = f.cache_source := by rw [← hfr]
  have hids : source_ids fr = source_ids f := by unfold source_ids; rw [hfrs]
  have hnd' : (source_ids fr).Nodup := by rw [hids]; exact hnd
  have hp' : ∀ s ∈ fr.sources, py_startswith s.source_id "|" = false := by
    rw [hfrs]; exact hp
  have hcik : ∀ k, class_indices fr k = class_indices f k := by
    intro k; unfold class_indices; rw [hfrs]
  have hra : ∀ j, restricted_at fr j = restricted_at f j := by
    intro j; unfold restricted_at; rw [hfrs]
  rw [hfrc]
  cases hcache : f.cache_source with
  | some ci =>
    have hci : ci < f.sources.length := hc ci (by rw [hcache]; simp)
    have hcs : f.sources[ci]? = some f.sources[ci] := List.getElem?_eq_getElem hci
    have hspec : init_priority_spec f = ci := by
      unfold init_priority_spec; rw [hcache]
    rw [hspec]
    dsimp only
    unfold redirect_to_index
    rw [hfrs, hcs]
    dsimp only
    apply select_loop_concrete_goal 3
    · exact hnd'
    · exact hp'
    · rw [hids, source_ids, List.getElem?_map, hcs]; rfl
    · exact hfrs
  | none =>
    dsimp only
    rw [hfrs, hcik SKind.steam, hcik SKind.download, hfru]
    simp only [hra]
    by_cases hl : 1 < f.sources.length
    · rw [if_pos hl]
      cases hsteam : class_indices f SKind.steam with
      | cons si t =>
        obtain ⟨ss, hss, hssk⟩ := class_indices_kind
          (show si ∈ class_indices f SKind.steam by rw [hsteam]; exact List.mem_cons_self si t)
        have hspec : init_priority_spec f = si := by
          unfold init_priority_spec; rw [hcache, hsteam]
        rw [hspec]
        dsimp only
        unfold redirect_to_index
        rw [hfrs, hss]
        dsimp only
        apply select_loop_concrete_goal 3
        · exact hnd'
        · exact hp'
        · rw [hids, source_ids, List.getElem?_map, hss]; rfl
        · exact hfrs
      | nil =>
        cases hdl : class_indices f SKind.download with
        | nil =>
          have hspec : init_priority_spec f = f.user_source := by
            unfold init_priority_spec; rw [hcache, hsteam, hdl]
          rw [hspec]
          dsimp only
          unfold redirect_to_index
          rw [hfrs, hus]
          dsimp only
          apply select_loop_concrete_goal 3
          · exact hnd'
          · exact hp'
          · rw [hids]; exact husid
          · exact hfrs
        | cons di rest =>
          dsimp only
          unfold redirect_to_index
          cases hfind : (di :: rest).find? (fun j => restricted_at f j = false) with
          | some j =>
            have hjm : j ∈ class_indices f SKind.download := by
              rw [hdl]; exact List.mem_of_find?_eq_some hfind
            obtain ⟨s, hsj, hsk⟩ := class_indices_kind hjm
            have hspec : init_priority_spec f = j := by
              unfold init_priority_spec; rw [hcache, hsteam, hdl]
              dsimp only
              rw [hfind]
            rw [hspec]
            dsimp only
            rw [hsj]
            dsimp only
            apply select_loop_concrete_goal 3
            · exact hnd
            · exact hp
            · rw [source_ids, List.getElem?_map, hsj]; rfl
            · rfl
          | none =>
            have hjm : di ∈ class_indices f SKind.download := by
              rw [hdl]; exact List.mem_cons_self di rest
            obtain ⟨s, hsj, hsk⟩ := class_indices_kind hjm
            have hspec : init_priority_spec f = di := by
              unfold init_priority_spec; rw [hcache, hsteam, hdl]
              dsimp only
              rw [hfind]
            rw [hspec]
            dsimp only
            rw [hsj]
            dsimp only
            apply select_loop_concrete_goal 3
            · exact hnd
            · exact hp
            · rw [source_ids, List.getElem?_map, hsj]; rfl
            · rfl
    · rw [if_neg hl]
      have hlt : f.user_source < f.sources.length := by
        rcases List.getElem?_eq_some_iff.mp hus with ⟨h1, _⟩; exact h1
      have hlen : f.sources.length = 1 := by omega
      have hu0 : f.user_source = 0 := by omega
      have h0 : f.sources[0]?.map (fun s => s.kind) = some SKind.user := by
        rw [← hu0]; exact hu
      have hse : class_indices f SKind.steam = [] :=
        class_indices_empty_of_single hlen h0 (by decide)
      have hde : class_indices f SKind.download = [] :=
        class_indices_empty_of_single hlen h0 (by decide)
      have hspec : init_priority_spec f = f.user_source := by
        unfold init_priority_spec; rw [hcache, hse, hde]
      rw [hspec]
      unfold redirect_to_index
      rw [hfrs, hus]
      dsimp only
      apply select_loop_concrete_goal 3
      · exact hnd'
      · exact hp'
      · rw [hids]; exact husid
      · exact hfrs

theorem class_indices_lt {f : InstallerFile} {k : SKind} {j : Nat}
    (h : j ∈ class_indices f k) : j < f.sources.length := by
  unfold class_indices at h
  exact List.mem_range.mp (List.mem_filter.mp h).1

/-- The index picked by the specification's priority order is an owned
index. -/
theorem init_priority_spec_lt (f : InstallerFile)
    (hu : f.sources[f.user_source]?.map (fun s => s.kind) = some SKind.user)
    (hc : ∀ ci ∈ f.cache_source.toList, ci < f.sources.length) :
    init_priority_spec f < f.sources.length := by
  have hult : f.user_source < f.sources.length := by
    cases hs : f.sources[f.user_source]? with
    | none => rw [hs] at hu; cases hu
    | some us => exact (List.getElem?_eq_some_iff.mp hs).1
  unfold init_priority_spec
  cases hcache : f.cache_source with
  | some ci => exact hc ci (by rw [hcache]; simp)
  | none =>
    dsimp only
    cases hsteam : class_indices f SKind.steam with
    | cons si t =>
      exact class_indices_lt (by rw [hsteam]; exact List.mem_cons_self si t)
    | nil =>
      dsimp only
      cases hdl : class_indices f SKind.download with
      | nil => exact hult
      | cons di rest =>
        dsimp only
        cases hfind : (di :: rest).find? (fun j => restricted_at f j = false) with
        | some j =>
          exact class_indices_lt
            (show j ∈ class_indices f SKind.download by
              rw [hdl]; exact List.mem_of_find?_eq_some hfind)
        | none =>
          exact class_indices_lt
            (show di ∈ class_indices f SKind.download by
              rw [hdl]; exact List.mem_cons_self di rest)

/-- A file whose override is already cleared is unchanged by clearing it. -/
theorem reset_eq_self {f : InstallerFile} (h : f.url_override = none) :
    ({ f with url_override := none } : InstallerFile) = f := by
  cases f
  simp_all

/-! ## C2 -/

/-- C2: `select("|init")` resolves exactly as the specification's priority
order (`init_priority_spec`, written from the claim's words): the Cache
source if one exists; else the first Steam source; else the first
non-restricted Download source; else the first Download source regardless of
restriction; else the User source — in particular, a file owning a Cache
source always ends with the Cache source active.  Stated for every file
satisfying the construction invariants (unique ids, no reserved-sentinel ids,
a user source, an owned cache reference). -/
theorem init_selection_follows_spec_priority (f : InstallerFile)
    (hnd : (source_ids f).Nodup)
    (hp : ∀ s ∈ f.sources, py_startswith s.source_id "|" = false)
    (hu : f.sources[f.user_source]?.map (fun s => s.kind) = some SKind.user)
    (hc : ∀ ci ∈ f.cache_source.toList, ci < f.sources.length) :
    select_source f "|init" = Except.ok (select_result f "|init")
    ∧ (select_result f "|init").2 = init_priority_spec f
    ∧ (select_result f "|init").1.active_source = some (init_priority_spec f)
    ∧ (select_result f "|init").1.sources = f.sources
    ∧ (select_result f "|init").1.url_override = none := by
  obtain ⟨f1, hrun, hact, hsrc, hov⟩ := select_init_walk f hnd hp hu hc
  have hres : select_result f "|init" = (f1, init_priority_spec f) := by
    unfold select_result
    rw [hrun]
  refine ⟨?_, ?_, ?_, ?_, ?_⟩ <;> rw [hres]
  · exact hrun
  · exact hact
  · exact hsrc
  · exact hov

/-- C2 witness: a file owning a Cache source along with Steam, Download and
User sources; `select("|init")` makes the Cache source (index 3) active. -/
theorem init_selection_follows_spec_priority_witness :
    select_source file_with_cache "|init" = Except.ok (select_result file_with_cache "|init")
    ∧ (select_result file_with_cache "|init").2 = init_priority_spec file_with_cache
    ∧ (select_result file_with_cache "|init").1.active_source
        = some (init_priority_spec file_with_cache)
    ∧ (select_result file_with_cache "|init").1.sources = file_with_cache.sources
    ∧ (select_result file_with_cache "|init").1.url_override = none :=
  init_selection_follows_spec_priority file_with_cache
    (by decide) (by decide) (by decide) (by decide)

/-! ## C8 -/

/-- C8: selecting an owned source id settles on a single active owned source
with the `url_override` cleared; re-selecting the same id is a no-op — the
second call returns the very same state and selection (and `select_source`
emits no notification in any branch); and after construction's
`select("|init")`, exactly one owned source is active (`active_source` holds
exactly one valid index). -/
theorem select_idempotent_clears_override (f : InstallerFile) (x : String)
    (hx : x ∈ source_ids f)
    (hp : ∀ s ∈ f.sources, py_startswith s.source_id "|" = false)
    (hnd : (source_ids f).Nodup)
    (hu : f.sources[f.user_source]?.map (fun s => s.kind) = some SKind.user)
    (hc : ∀ ci ∈ f.cache_source.toList, ci < f.sources.length) :
    select_source f x = Except.ok (select_result f x)
    ∧ select_source (select_result f x).1 x = Except.ok (select_result f x)
    ∧ (select_result f x).1.url_override = none
    ∧ (select_result f x).1.active_source = some (select_result f x).2
    ∧ (select_result f x).1.sources = f.sources
    ∧ (select_result f x).2 < f.sources.length
    ∧ select_source f "|init" = Except.ok (select_result f "|init")
    ∧ (select_result f "|init").1.active_source = some (select_result f "|init").2
    ∧ (select_result f "|init").2 < f.sources.length := by
  obtain ⟨f1, i, hrun, hact, hmap, hsrc, hov⟩ := select_loop_concrete 4 f hx hp
  have hrun' : select_source f x = Except.ok (f1, i) := hrun
  have hres : select_result f x = (f1, i) := by
    unfold select_result
    rw [hrun']
  have hnoop : select_noop f1 x = some i := by
    unfold select_noop
    rw [hact]
    dsimp only
    rw [if_pos hmap]
  have hsecond : select_source f1 x = Except.ok (f1, i) := by
    rw [select_source_step]
    unfold select_step
    dsimp only
    rw [reset_eq_self hov, hnoop]
  have hilen : i < f.sources.length := by
    cases hsi : f1.sources[i]? with
    | none => rw [hsi] at hmap; cases hmap
    | some s =>
      have hlt := (List.getElem?_eq_some_iff.mp hsi).1
      rw [hsrc] at hlt
      exact hlt
  obtain ⟨g1, hginit, hgact, hgsrc, hgov⟩ := select_init_walk f hnd hp hu hc
  have hgres : select_result f "|init" = (g1, init_priority_spec f) := by
    unfold select_result
    rw [hginit]
  refine ⟨?_, ?_, ?_, ?_, ?_, ?_, ?_, ?_, ?_⟩
  · rw [hres]; exact hrun'
  · rw [hres]; exact hsecond
  · rw [hres]; exact hov
  · rw [hres]; exact hact
  · rw [hres]; exact hsrc
  · rw [hres]; exact hilen
  · rw [hgres]; exact hginit
  · rw [hgres]; exact hgact
  · rw [hgres]; exact init_priority_spec_lt f hu hc

/-- C8 witness: selecting the Steam source of `file_with_cache` twice. -/
theorem select_idempotent_clears_override_witness :
    select_source file_with_cache "steam" = Except.ok (select_result file_with_cache "steam")
    ∧ select_source (select_result file_with_cache "steam").1 "steam"
        = Except.ok (select_result file_with_cache "steam")
    ∧ (select_result file_with_cache "steam").1.url_override = none
    ∧ (select_result file_with_cache "steam").1.active_source
        = some (select_result file_with_cache "steam").2
    ∧ (select_result file_with_cache "steam").1.sources = file_with_cache.sources
    ∧ (select_result file_with_cache "steam").2 < file_with_cache.sources.length
    ∧ select_source file_with_cache "|init"
        = Except.ok (select_result file_with_cache "|init")
    ∧ (select_result file_with_cache "|init").1.active_source
        = some (select_result file_with_cache "|init").2
    ∧ (select_result file_with_cache "|init").2 < file_with_cache.sources.length :=
  select_idempotent_clears_override file_with_cache "steam"
    (by decide) (by decide) (by decide) (by decide) (by decide)
